import Mathlib

/-!
Shallow embedding of the `game-library` engine (the compiled `Game` class,
`GameLogger`, and the keyboard listener class) together with proofs about the
behaviour its specification describes.

Modelling conventions:
* JavaScript numbers are embedded as rationals (`ℚ`); a field that the code
  guards with a `typeof x === "number"` check is embedded as `Option ℚ`
  (`none` plays the role of `undefined`).
* JavaScript `Map` objects are embedded as insertion-ordered association
  lists (`JsMap`), `Set` objects as ordered lists (`JsSet`), with operations
  mirroring `has` / `get` / `set` / `delete` / `add` / `clear`.
* Canvas drawing, DOM manipulation and `console` output have no observable
  state in the embedding and are dropped; every other private field of the
  `Game` class is a field of the `Engine` structure.
-/

/-- The `GameState` enum of the source: unset(0), preload(1), load(2),
update(3), error(4). -/
inductive GameState where
  | unset
  | preload
  | load
  | update
  | error
deriving DecidableEq, Repr

/-- The rendering type: the source stores the strings "smooth" or "pixelated". -/
inductive RenderingType where
  | smooth
  | pixelated
deriving DecidableEq, Repr

/-- The smoothing quality: the source stores "low", "medium" or "high". -/
inductive SmoothQuality where
  | low
  | medium
  | high
deriving DecidableEq, Repr

/-- A two-dimensional vector of JavaScript numbers. -/
structure Vec2 where
  x : ℚ
  y : ℚ
deriving DecidableEq, Repr

/-- Modelled from the spec: the `GameSprite` asset record (its class file is
not under src/). Per the data model it has a unique name, a source reference,
mutable transform fields (position, size, rotation in degrees, skew, flip
flags). -/
structure GameSprite where
  name : String
  src : String
  pos : Vec2
  size : Vec2
  rotate : ℚ
  skew : Vec2
  flipX : Bool
  flipY : Bool
deriving DecidableEq, Repr

/-- Modelled from the spec: cloning a sprite produces an independent copy of
its record; in a value-semantics embedding the clone is the same record value. -/
def GameSprite.clone (s : GameSprite) : GameSprite := s

/-- The optional collision rectangle of an entity: the source reads
`collision.x/y/w/h` and guards each with `typeof === "number"`, so each field
is an `Option ℚ`. -/
structure CollisionBox where
  x : Option ℚ
  y : Option ℚ
  w : Option ℚ
  h : Option ℚ
deriving DecidableEq, Repr

/-- Modelled from the spec: the `GameObject` entity record (its class file is
not under src/): unique name, owned sprite, position/size, optional collision
rectangle, layer ordinal, instance counter. -/
structure GameObject where
  name : String
  sprite : GameSprite
  layer : Nat
  pos : Vec2
  size : Vec2
  collision : CollisionBox
  instanceId : Nat
deriving DecidableEq, Repr

/-- Modelled from the spec: the `GameAudio` asset record (its class file is
not under src/): a named loadable resource. -/
structure GameAudio where
  name : String
  src : String
deriving DecidableEq, Repr

/-- Modelled from the spec: the `GameMap` record (its class file is not under
src/): a named resource referring to a sprite image. -/
structure GameMap where
  name : String
  spriteName : String
deriving DecidableEq, Repr

/-- Modelled from the spec: the `GameCamera` record (its class file is not
under src/): a named resource holding a viewport rectangle and a map
reference. -/
structure GameCamera where
  name : String
  mapName : String
  pos : Vec2
  size : Vec2
deriving DecidableEq, Repr

/-- The keyboard listener object (from `GameGamepad.js`): its constructor
attaches the keydown/keyup listeners, `removeListener` detaches them. -/
structure GameKeyboard where
  listenerAttached : Bool
deriving DecidableEq, Repr

/-- A JavaScript `Map` with string keys: an insertion-ordered association
list. -/
abbrev JsMap (α : Type) : Type := List (String × α)

/-- A JavaScript `Set` of strings: an insertion-ordered list of members. -/
abbrev JsSet : Type := List String

/-- JavaScript `Map.prototype.has`. -/
def hasKey {α : Type} : JsMap α → String → Bool
  | [], _ => false
  | p :: rest, k => p.1 == k || hasKey rest k

/-- JavaScript `Map.prototype.get` (`none` for a missing key). -/
def getKey {α : Type} : JsMap α → String → Option α
  | [], _ => none
  | p :: rest, k => if p.1 == k then some p.2 else getKey rest k

/-- JavaScript `Map.prototype.set`: replaces the value in place when the key
is present, appends the pair at the end otherwise. -/
def setKey {α : Type} : JsMap α → String → α → JsMap α
  | [], k, v => [(k, v)]
  | p :: rest, k, v => if p.1 == k then (k, v) :: rest else p :: setKey rest k v

/-- JavaScript `Map.prototype.delete`: removes the entry with the given key. -/
def deleteKey {α : Type} : JsMap α → String → JsMap α
  | [], _ => []
  | p :: rest, k => if p.1 == k then deleteKey rest k else p :: deleteKey rest k

/-- JavaScript `Set.prototype.has`. -/
def hasMember : JsSet → String → Bool
  | [], _ => false
  | m :: rest, k => m == k || hasMember rest k

/-- JavaScript `Set.prototype.add`: appends the member if it is not present. -/
def addMember (s : JsSet) (k : String) : JsSet :=
  if hasMember s k then s else s ++ [k]

/-- The `colliding(object1, object2)` method of `Game`: all eight
`collision` fields must pass the `typeof === "number"` checks, and then the
boxes are compared with the inclusive inequalities of the source — note that
the source reads `object1.pos` and the collision width/height but never adds
the collision `x`/`y` offsets. -/
def colliding (object1 object2 : GameObject) : Bool :=
  if object1.collision.x.isSome && object1.collision.y.isSome &&
      object1.collision.w.isSome && object1.collision.h.isSome &&
      object2.collision.x.isSome && object2.collision.y.isSome &&
      object2.collision.w.isSome && object2.collision.h.isSome then
    decide (object1.pos.x ≤ object2.pos.x + object2.collision.w.getD 0) &&
    decide (object1.pos.x + object1.collision.w.getD 0 ≥ object2.pos.x) &&
    decide (object1.pos.y ≤ object2.pos.y + object2.collision.h.getD 0) &&
    decide (object1.pos.y + object1.collision.h.getD 0 ≥ object2.pos.y)
  else
    false

/-- All four collision fields of an entity are numbers. -/
def collisionComplete (o : GameObject) : Prop :=
  o.collision.x.isSome = true ∧ o.collision.y.isSome = true ∧
  o.collision.w.isSome = true ∧ o.collision.h.isSome = true

instance (o : GameObject) : Decidable (collisionComplete o) := by
  unfold collisionComplete
  infer_instance

/-- The overlap test the source actually performs: boxes anchored at the
entity positions with the collision widths/heights, inclusive on all four
sides; the collision offsets are not used. -/
def boxesOverlapAtPos (a b : GameObject) : Prop :=
  a.pos.x ≤ b.pos.x + b.collision.w.getD 0 ∧
  b.pos.x ≤ a.pos.x + a.collision.w.getD 0 ∧
  a.pos.y ≤ b.pos.y + b.collision.h.getD 0 ∧
  b.pos.y ≤ a.pos.y + a.collision.h.getD 0

instance (a b : GameObject) : Decidable (boxesOverlapAtPos a b) := by
  unfold boxesOverlapAtPos
  infer_instance

/-- The overlap test in the words of the claim: boxes formed as position plus
collision offset, with the collision width/height, inclusive on all four
sides. -/
def boxesOverlapWithOffset (a b : GameObject) : Prop :=
  a.pos.x + a.collision.x.getD 0 ≤ b.pos.x + b.collision.x.getD 0 + b.collision.w.getD 0 ∧
  b.pos.x + b.collision.x.getD 0 ≤ a.pos.x + a.collision.x.getD 0 + a.collision.w.getD 0 ∧
  a.pos.y + a.collision.y.getD 0 ≤ b.pos.y + b.collision.y.getD 0 + b.collision.h.getD 0 ∧
  b.pos.y + b.collision.y.getD 0 ≤ a.pos.y + a.collision.y.getD 0 + a.collision.h.getD 0

instance (a b : GameObject) : Decidable (boxesOverlapWithOffset a b) := by
  unfold boxesOverlapWithOffset
  infer_instance

/-- JavaScript `Math.abs` on the embedded numbers. -/
def jsAbs (x : ℚ) : ℚ := if x < 0 then -x else x

/-- The private mutable fields of the `Game` class that are observable in the
embedding, in source declaration order (canvas/context fields dropped). -/
structure Engine where
  width : ℚ
  height : ℚ
  renderingType : RenderingType
  smoothRenderingValue : SmoothQuality
  scale : ℚ
  loadedSprites : JsMap GameSprite
  loadedGameObjects : JsMap GameObject
  loadedAudios : JsMap GameAudio
  loadedGameMaps : JsMap GameMap
  loadedGameCameras : JsMap GameCamera
  logsEnabled : Bool
  loggedErros : JsSet
  currentState : GameState
  updaterRunOnceKeys : JsSet
  deltaTimePreviousTime : ℚ
  updateIsRunning : Bool
  keyboardEnabled : Bool
  keyboardState : JsMap Bool
  keyboardInstance : Option GameKeyboard

/-- The `Game` constructor: negative width/height only produce a warning log
and are stored through `Math.abs`; every other field keeps its initializer
(the rejection handler it installs is modelled in `gameRun` below). -/
def mkGame (width height : ℚ) : Engine where
  width := jsAbs width
  height := jsAbs height
  renderingType := RenderingType.smooth
  smoothRenderingValue := SmoothQuality.low
  scale := 1
  loadedSprites := []
  loadedGameObjects := []
  loadedAudios := []
  loadedGameMaps := []
  loadedGameCameras := []
  logsEnabled := false
  loggedErros := []
  currentState := GameState.unset
  updaterRunOnceKeys := []
  deltaTimePreviousTime := 0
  updateIsRunning := false
  keyboardEnabled := false
  keyboardState := []
  keyboardInstance := none

/-- The outcome a preloaded asset will produce: the asset record plus whether
its ready signal (image `onload` / audio `canplaythrough`) fires, as opposed
to its error signal. -/
inductive AssetSpec where
  | spriteAsset (s : GameSprite) (loadsOk : Bool)
  | audioAsset (a : GameAudio) (loadsOk : Bool)
deriving DecidableEq, Repr

/-- The kinds of values a load-stage producer can return: entities, maps and
cameras, partitioned by `instanceof` in the source. -/
inductive Loadable where
  | objectL (o : GameObject)
  | mapL (m : GameMap)
  | cameraL (c : GameCamera)
deriving DecidableEq, Repr

/-- The reasons a lifecycle chain link rejects. `emptyAssetList` is the
`Error` thrown with the message "Zero assets returned. You must return at
least one asset."; the load errors carry the failing asset name as in the
rejection strings of the source. -/
inductive GErr where
  | producerThrow (msg : String)
  | emptyAssetList
  | spriteLoadFail (name : String)
  | audioLoadFail (name : String)
deriving DecidableEq, Repr

/-- A registered lifecycle stage, with the settled outcome of its
user-supplied producer embedded as data: a producer either throws (with a
message) or returns its list. -/
inductive Stage where
  | preloadStage (producer : Except String (List AssetSpec))
  | loadStage (producer : Except String (List Loadable))
  | updateStage
deriving Repr

/-- Inserts every successfully loading sprite of the asset list into the
sprite registry (each `onload` handler does `loadedSprites.set`). -/
def insertLoadedSprites (m : JsMap GameSprite) : List AssetSpec → JsMap GameSprite
  | [] => m
  | AssetSpec.spriteAsset s true :: rest => insertLoadedSprites (setKey m s.name s) rest
  | _ :: rest => insertLoadedSprites m rest

/-- Inserts every successfully loading audio of the asset list into the audio
registry (each `canplaythrough` handler does `loadedAudios.set`). -/
def insertLoadedAudios (m : JsMap GameAudio) : List AssetSpec → JsMap GameAudio
  | [] => m
  | AssetSpec.audioAsset a true :: rest => insertLoadedAudios (setKey m a.name a) rest
  | _ :: rest => insertLoadedAudios m rest

/-- The name of the first sprite in the list whose error signal fires, if
any: the value `await Promise.all(spriteLoadPromises)` rejects with. -/
def firstSpriteFailure : List AssetSpec → Option String
  | [] => none
  | AssetSpec.spriteAsset s false :: _ => some s.name
  | _ :: rest => firstSpriteFailure rest

/-- The name of the first audio in the list whose error signal fires, if
any: the value `await Promise.all(audioLoadPromises)` rejects with. -/
def firstAudioFailure : List AssetSpec → Option String
  | [] => none
  | AssetSpec.audioAsset a false :: _ => some a.name
  | _ :: rest => firstAudioFailure rest

/-- Registers one value returned by a load-stage producer into the registry
of its kind (the `forEach` loops over the partitioned lists). -/
def insertLoadable (acc : Engine) : Loadable → Engine
  | Loadable.objectL o =>
    { acc with loadedGameObjects := setKey acc.loadedGameObjects o.name o }
  | Loadable.mapL m =>
    { acc with loadedGameMaps := setKey acc.loadedGameMaps m.name m }
  | Loadable.cameraL c =>
    { acc with loadedGameCameras := setKey acc.loadedGameCameras c.name c }

/-- Runs the body of one lifecycle chain link (the callback passed to
`.then`), returning the engine state it leaves behind and whether the link
resolves or rejects. Asset ready/error handlers all fire, so successes are
inserted even when a sibling asset rejects the stage; the sprite group is
awaited before the audio group. The registration of maps/cameras/objects in
the load stage partitions the producer result by kind. -/
def runStage (e : Engine) : Stage → Engine × Except GErr Unit
  | Stage.preloadStage producer =>
    let e1 := { e with currentState := GameState.preload }
    match producer with
    | Except.error msg => (e1, Except.error (GErr.producerThrow msg))
    | Except.ok assets =>
      if assets.length = 0 then (e1, Except.error GErr.emptyAssetList)
      else
        let e2 := { e1 with loadedSprites := insertLoadedSprites e1.loadedSprites assets }
        match firstSpriteFailure assets with
        | some nm => (e2, Except.error (GErr.spriteLoadFail nm))
        | none =>
          let e3 := { e2 with loadedAudios := insertLoadedAudios e2.loadedAudios assets }
          match firstAudioFailure assets with
          | some nm => (e3, Except.error (GErr.audioLoadFail nm))
          | none => (e3, Except.ok ())
  | Stage.loadStage producer =>
    let e1 := { e with currentState := GameState.load }
    match producer with
    | Except.error msg => (e1, Except.error (GErr.producerThrow msg))
    | Except.ok objs => (objs.foldl insertLoadable e1, Except.ok ())
  | Stage.updateStage =>
    ({ e with currentState := GameState.update, updateIsRunning := true }, Except.ok ())

/-- Runs the registered lifecycle chain with promise `then` semantics: a link
body runs only when every earlier link resolved; after the first rejection no
later body (including its state assignment) executes, and the rejection is
the chain's outcome. -/
def runChain (e : Engine) : List Stage → Engine × Except GErr Unit
  | [] => (e, Except.ok ())
  | s :: rest =>
    match runStage e s with
    | (e1, Except.ok _) => runChain e1 rest
    | (e1, Except.error err) => (e1, Except.error err)

/-- The rejection handler installed by the constructor: on a rejected promise
it sets the state to `GameState.error` (and logs). -/
def constructorCatchHandler (e : Engine) (outcome : Except GErr Unit) : Engine :=
  match outcome with
  | Except.ok _ => e
  | Except.error _ => { e with currentState := GameState.error }

/-- The promise the constructor attached its `.catch` to: at construction
time `#lifecyclePromise` is `Promise.resolve()`, and the stage methods later
REASSIGN the field to new `.then`-derived promises without re-attaching the
handler, so the handler only ever observes the already-resolved initial
promise. -/
def initialLifecycleOutcome : Except GErr Unit := Except.ok ()

/-- The observable result of constructing a game and letting a registered
chain of stages settle: the chain runs, and the constructor's catch handler
fires only for a rejection of the promise it was attached to (the initial
resolved one), never for rejections of the reassigned chain. -/
def gameRun (e : Engine) (stages : List Stage) : Engine :=
  constructorCatchHandler (runChain e stages).1 initialLifecycleOutcome

/-- The `pause()` method: when the loop is running, set the state to `unset`,
stop the loop and cancel the scheduled frame; otherwise do nothing. -/
def pauseGame (e : Engine) : Engine :=
  if e.updateIsRunning then
    { e with currentState := GameState.unset, updateIsRunning := false }
  else e

/-- The `resume()` method: when the loop is stopped, restore the `update`
state, mark the loop running and reschedule a frame; otherwise do nothing. -/
def resumeGame (e : Engine) : Engine :=
  if e.updateIsRunning then e
  else { e with currentState := GameState.update, updateIsRunning := true }

/-- The `useLogs()` method: enables utility logs (the logger stores are only
registered, which has no observable engine state here). -/
def useLogs (e : Engine) : Engine :=
  if e.logsEnabled then e else { e with logsEnabled := true }

/-- The `useKeyboard()` method: creates the keyboard instance, whose
constructor attaches the key listeners. -/
def useKeyboard (e : Engine) : Engine :=
  { e with keyboardInstance := some { listenerAttached := true }, keyboardEnabled := true }

/-- Whether any input listener is currently attached. -/
def listenersAttached (e : Engine) : Bool :=
  match e.keyboardInstance with
  | some kb => kb.listenerAttached
  | none => false

/-- The `end()` method: disables logs, pauses the loop, removes the keyboard
listener when an instance exists, and clears the five registries, the
keyboard state and the miss-logging set `#loggedErros` — and nothing else. -/
def endGame (e : Engine) : Engine :=
  let e1 := { e with logsEnabled := false }
  let e2 := pauseGame e1
  let e3 :=
    match e2.keyboardInstance with
    | some _ => { e2 with keyboardInstance := some { listenerAttached := false } }
    | none => e2
  { e3 with
      loadedAudios := []
      loadedGameCameras := []
      loadedGameMaps := []
      loadedGameObjects := []
      loadedSprites := []
      keyboardState := []
      loggedErros := [] }

/-- The `runOnce(identifier, callbackFn)` helper of the updater object: runs
the callback (returning `true`) only when the identifier was never seen, and
records the identifier. -/
def runOnce (e : Engine) (identifier : String) : Engine × Bool :=
  if hasMember e.updaterRunOnceKeys identifier then (e, false)
  else ({ e with updaterRunOnceKeys := addMember e.updaterRunOnceKeys identifier }, true)

/-- The argument of `removeObject`: the source dispatches on
`instanceof GameSprite` / `instanceof GameObject`. -/
inductive Removable where
  | spriteR (s : GameSprite)
  | objectR (o : GameObject)
deriving DecidableEq, Repr

/-- The `removeObject(targetObject)` method: deletes a sprite from the sprite
registry or an entity from the entity registry when its name is present
(also clearing its drawn region and logging); a plain no-op otherwise. -/
def removeObject (e : Engine) : Removable → Engine
  | Removable.spriteR s =>
    if hasKey e.loadedSprites s.name then
      { e with loadedSprites := deleteKey e.loadedSprites s.name }
    else e
  | Removable.objectR o =>
    if hasKey e.loadedGameObjects o.name then
      { e with loadedGameObjects := deleteKey e.loadedGameObjects o.name }
    else e

/-- Modelled from the spec: the `GameObject` constructor call
`new GameObject(name, GameSprite.clone(sprite), layer)` performed by
`instantiate` (the `GameObject` class file is not under src/): a fresh entity
with the derived 1-based-suffix name, a clone of the template sprite, the
template layer, position/size taken from the sprite, no collision box yet,
and the instance counter after the `instanceId++` of `instantiate`. -/
def mkInstance (t : GameObject) (i : Nat) : GameObject where
  name := t.name ++ "-" ++ toString (i + 1)
  sprite := GameSprite.clone t.sprite
  layer := t.layer
  pos := t.sprite.pos
  size := t.sprite.size
  collision := { x := none, y := none, w := none, h := none }
  instanceId := 1

/-- One iteration of the `instantiate` loop: build the fresh entity, register
it only when its name is not yet taken, then push it when the (updated)
registry has the name — which after the first step it always does. -/
def instStep (t : GameObject) (acc : JsMap GameObject × List GameObject) (i : Nat) :
    JsMap GameObject × List GameObject :=
  let newObject := mkInstance t i
  let m := if hasKey acc.1 newObject.name then acc.1 else setKey acc.1 newObject.name newObject
  let insts := if hasKey m newObject.name then acc.2 ++ [newObject] else acc.2
  (m, insts)

/-- The `instantiate(targetObject, quantity)` method, acting on the entity
registry: returns the updated registry and the `instances` array. -/
def instantiateObjects (gm : JsMap GameObject) (t : GameObject) (quantity : Nat) :
    JsMap GameObject × List GameObject :=
  (List.range quantity).foldl (instStep t) (gm, [])

/-- The `scale` setter: stores `Math.abs(scaleValue)`. -/
def setScale (e : Engine) (scaleValue : ℚ) : Engine :=
  { e with scale := jsAbs scaleValue }

/-- The `renderingType` setter: stores the given value. -/
def setRenderingType (e : Engine) (rt : RenderingType) : Engine :=
  { e with renderingType := rt }

/-- The `smoothingQuality` setter: throws when the rendering type is not
"smooth" (before touching any field), stores the value otherwise. -/
def setSmoothingQuality (e : Engine) (q : SmoothQuality) : Except String Engine :=
  if e.renderingType ≠ RenderingType.smooth then
    Except.error "The current rendering type is not smooth, set it to smooth to use the smoothingQuality attribute"
  else
    Except.ok { e with smoothRenderingValue := q }

/-- One animation-frame callback of `#updateLoopLogic` with the given
timestamp: when the state is no longer `update` the callback returns without
rescheduling; otherwise it draws cameras, clears entities (canvas effects),
computes `deltaTime = (currentTime - previous) / 1000`, hands it to the user
callback, and stores the timestamp as the new previous time. The second
component is the delta passed to the user callback, if it ran. -/
def updateTick (e : Engine) (currentTime : ℚ) : Engine × Option ℚ :=
  if e.currentState ≠ GameState.update then (e, none)
  else
    ({ e with deltaTimePreviousTime := currentTime },
     some ((currentTime - e.deltaTimePreviousTime) / 1000))

/-- Runs the frame loop over a list of frame timestamps, collecting the
elapsed-time values handed to the user callback; a tick whose guard fires
does not reschedule, ending the run. -/
def runTicks (e : Engine) : List ℚ → Engine × List ℚ
  | [] => (e, [])
  | t :: ts =>
    match updateTick e t with
    | (e1, none) => (e1, [])
    | (e1, some d) =>
      let r := runTicks e1 ts
      (r.1, d :: r.2)

/-- Every state-changing operation of the public engine surface, used to
express reachability invariants. -/
inductive Op where
  | setScaleOp (v : ℚ)
  | setRenderingTypeOp (rt : RenderingType)
  | setSmoothingQualityOp (q : SmoothQuality)
  | pauseOp
  | resumeOp
  | endOp
  | useLogsOp
  | useKeyboardOp
  | removeObjectOp (t : Removable)
  | instantiateOp (t : GameObject) (n : Nat)
  | runOnceOp (id : String)
  | chainOp (stages : List Stage)
  | tickOp (t : ℚ)

/-- Applies one operation to the engine; a setter that throws leaves the
state exactly as it was (the exception propagates to the caller before any
assignment). -/
def applyOp (e : Engine) : Op → Engine
  | Op.setScaleOp v => setScale e v
  | Op.setRenderingTypeOp rt => setRenderingType e rt
  | Op.setSmoothingQualityOp q =>
    match setSmoothingQuality e q with
    | Except.ok e1 => e1
    | Except.error _ => e
  | Op.pauseOp => pauseGame e
  | Op.resumeOp => resumeGame e
  | Op.endOp => endGame e
  | Op.useLogsOp => useLogs e
  | Op.useKeyboardOp => useKeyboard e
  | Op.removeObjectOp t => removeObject e t
  | Op.instantiateOp t n =>
    { e with loadedGameObjects := (instantiateObjects e.loadedGameObjects t n).1 }
  | Op.runOnceOp id => (runOnce e id).1
  | Op.chainOp stages => gameRun e stages
  | Op.tickOp t => (updateTick e t).1

/-- A sprite record used by the concrete example entities below. -/
def exampleSprite : GameSprite where
  name := "spr"
  src := "spr.png"
  pos := { x := 0, y := 0 }
  size := { x := 16, y := 16 }
  rotate := 0
  skew := { x := 0, y := 0 }
  flipX := false
  flipY := false

/-- An entity at the origin whose collision box carries a large x offset:
per the spec wording its box spans x from 1000 to 1010, y from 0 to 10. -/
def offsetEntityA : GameObject where
  name := "a"
  sprite := exampleSprite
  layer := 0
  pos := { x := 0, y := 0 }
  size := { x := 16, y := 16 }
  collision := { x := some 1000, y := some 0, w := some 10, h := some 10 }
  instanceId := 0

/-- An entity near the origin with an offset-free 10 by 10 collision box:
per the spec wording its box spans x from 5 to 15, y from 5 to 15. -/
def offsetEntityB : GameObject where
  name := "b"
  sprite := exampleSprite
  layer := 0
  pos := { x := 5, y := 5 }
  size := { x := 16, y := 16 }
  collision := { x := some 0, y := some 0, w := some 10, h := some 10 }
  instanceId := 0

/-- A template entity named "tpl" used for the instancing examples. -/
def templateEntity : GameObject where
  name := "tpl"
  sprite := exampleSprite
  layer := 0
  pos := { x := 0, y := 0 }
  size := { x := 16, y := 16 }
  collision := { x := none, y := none, w := none, h := none }
  instanceId := 0

/-- An unrelated entity that already occupies the registry name "tpl-1". -/
def occupyingEntity : GameObject where
  name := "tpl-1"
  sprite := exampleSprite
  layer := 3
  pos := { x := 7, y := 7 }
  size := { x := 16, y := 16 }
  collision := { x := none, y := none, w := none, h := none }
  instanceId := 42

/-!
Helper lemmas about the embedded `Map` and `Set` operations, followed by the
theorems settling the specification claims.
-/

lemma colliding_char (a b : GameObject) :
    colliding a b = true ↔
      collisionComplete a ∧ collisionComplete b ∧ boxesOverlapAtPos a b := by
  unfold colliding collisionComplete boxesOverlapAtPos
  constructor
  · intro h
    by_cases hc : (a.collision.x.isSome && a.collision.y.isSome &&
        a.collision.w.isSome && a.collision.h.isSome &&
        b.collision.x.isSome && b.collision.y.isSome &&
        b.collision.w.isSome && b.collision.h.isSome) = true
    · rw [if_pos hc] at h
      simp only [Bool.and_eq_true, decide_eq_true_eq, ge_iff_le] at h hc
      tauto
    · rw [if_neg hc] at h
      exact absurd h (by simp)
  · intro h
    obtain ⟨⟨h1, h2, h3, h4⟩, ⟨h5, h6, h7, h8⟩, o1, o2, o3, o4⟩ := h
    rw [if_pos (by simp [h1, h2, h3, h4, h5, h6, h7, h8])]
    simp only [Bool.and_eq_true, decide_eq_true_eq, ge_iff_le]
    tauto

lemma hasKey_nil {α : Type} (k : String) : hasKey ([] : JsMap α) k = false := rfl

lemma hasKey_cons {α : Type} (p : String × α) (rest : JsMap α) (k : String) :
    hasKey (p :: rest) k = (p.1 == k || hasKey rest k) := rfl

lemma hasKey_deleteKey_self {α : Type} (m : JsMap α) (k : String) :
    hasKey (deleteKey m k) k = false := by
  induction m with
  | nil => rfl
  | cons p rest ih =>
    by_cases h : (p.1 == k) = true
    · simp [deleteKey, h, ih]
    · simp [deleteKey, hasKey_cons, h, ih]

lemma hasKey_setKey_self {α : Type} (m : JsMap α) (k : String) (v : α) :
    hasKey (setKey m k v) k = true := by
  induction m with
  | nil => simp [setKey, hasKey_cons, hasKey_nil]
  | cons p rest ih =>
    by_cases h : (p.1 == k) = true
    · simp [setKey, h, hasKey_cons]
    · simp [setKey, h, hasKey_cons, ih]

lemma hasKey_setKey_of_hasKey {α : Type} {m : JsMap α} {k : String} (k2 : String) (v : α)
    (h : hasKey m k = true) : hasKey (setKey m k2 v) k = true := by
  induction m with
  | nil => simp [hasKey_nil] at h
  | cons p rest ih =>
    by_cases h2 : (p.1 == k2) = true
    · have e2 : p.1 = k2 := by simpa using h2
      rw [hasKey_cons] at h
      simp only [setKey, h2, if_pos, hasKey_cons]
      rcases Bool.or_eq_true_iff.mp h with hk | hk
      · have e1 : p.1 = k := by simpa using hk
        have : (k2 == k) = true := by rw [← e2]; exact hk
        simp [this]
      · simp [hk]
    · rw [hasKey_cons] at h
      rcases Bool.or_eq_true_iff.mp h with hk | hk
      · simp [setKey, h2, hasKey_cons, hk]
      · simp [setKey, h2, hasKey_cons, ih hk]

lemma getKey_setKey_ne {α : Type} (m : JsMap α) {k k2 : String} (v : α) (hne : k ≠ k2) :
    getKey (setKey m k2 v) k = getKey m k := by
  induction m with
  | nil =>
    have : (k2 == k) = false := by
      simp only [beq_eq_false_iff_ne, ne_eq]
      exact fun e => hne e.symm
    simp [setKey, getKey, this]
  | cons p rest ih =>
    by_cases h2 : (p.1 == k2) = true
    · have e2 : p.1 = k2 := by simpa using h2
      have hpk : (p.1 == k) = false := by
        simp only [beq_eq_false_iff_ne, ne_eq]
        intro e; exact hne (e2 ▸ e).symm
      have hk2k : (k2 == k) = false := by
        simp only [beq_eq_false_iff_ne, ne_eq]
        exact fun e => hne e.symm
      simp [setKey, h2, getKey, hpk, hk2k]
    · by_cases hpk : (p.1 == k) = true
      · simp [setKey, h2, getKey, hpk]
      · simp [setKey, h2, getKey, hpk, ih]

lemma instStep_snd (t : GameObject) (acc : JsMap GameObject × List GameObject) (i : Nat) :
    (instStep t acc i).2 = acc.2 ++ [mkInstance t i] := by
  unfold instStep
  by_cases h : hasKey acc.1 (mkInstance t i).name = true
  · simp [h]
  · simp [h, hasKey_setKey_self]

lemma instStep_fst (t : GameObject) (acc : JsMap GameObject × List GameObject) (i : Nat) :
    (instStep t acc i).1 =
      if hasKey acc.1 (mkInstance t i).name then acc.1
      else setKey acc.1 (mkInstance t i).name (mkInstance t i) := rfl

lemma foldl_instStep_snd (t : GameObject) (l : List Nat) :
    ∀ (m : JsMap GameObject) (acc : List GameObject),
      (l.foldl (instStep t) (m, acc)).2 = acc ++ l.map (mkInstance t) := by
  induction l with
  | nil => intro m acc; simp
  | cons i l ih =>
    intro m acc
    rw [List.foldl_cons]
    rcases hstep : instStep t (m, acc) i with ⟨m1, a1⟩
    have ha1 : a1 = acc ++ [mkInstance t i] := by
      have := instStep_snd t (m, acc) i
      rw [hstep] at this
      exact this
    rw [ih m1 a1, ha1]
    simp

lemma foldl_instStep_preserve (t : GameObject) (l : List Nat) :
    ∀ (m : JsMap GameObject) (acc : List GameObject) (k : String),
      hasKey m k = true →
      getKey (l.foldl (instStep t) (m, acc)).1 k = getKey m k ∧
      hasKey (l.foldl (instStep t) (m, acc)).1 k = true := by
  induction l with
  | nil => intro m acc k h; exact ⟨rfl, h⟩
  | cons i l ih =>
    intro m acc k h
    rw [List.foldl_cons]
    rcases hstep : instStep t (m, acc) i with ⟨m1, a1⟩
    have hm1 : m1 =
        if hasKey m (mkInstance t i).name then m
        else setKey m (mkInstance t i).name (mkInstance t i) := by
      have := instStep_fst t (m, acc) i
      rw [hstep] at this
      exact this
    by_cases hh : hasKey m (mkInstance t i).name = true
    · rw [if_pos hh] at hm1
      subst hm1
      exact ih m1 a1 k h
    · rw [if_neg hh] at hm1
      have hne : k ≠ (mkInstance t i).name := by
        intro e
        rw [e] at h
        exact hh h
      have hget : getKey m1 k = getKey m k := by
        rw [hm1]
        exact getKey_setKey_ne m (mkInstance t i) hne
      have hhas : hasKey m1 k = true := by
        rw [hm1]
        exact hasKey_setKey_of_hasKey (mkInstance t i).name (mkInstance t i) h
      obtain ⟨g1, g2⟩ := ih m1 a1 k hhas
      exact ⟨g1.trans hget, g2⟩

lemma foldl_instStep_names (t : GameObject) (l : List Nat) :
    ∀ (m : JsMap GameObject) (acc : List GameObject) (i : Nat), i ∈ l →
      hasKey (l.foldl (instStep t) (m, acc)).1 (mkInstance t i).name = true := by
  induction l with
  | nil => intro m acc i hi; simp at hi
  | cons j l ih =>
    intro m acc i hi
    rw [List.foldl_cons]
    rcases hstep : instStep t (m, acc) j with ⟨m1, a1⟩
    have hm1 : m1 =
        if hasKey m (mkInstance t j).name then m
        else setKey m (mkInstance t j).name (mkInstance t j) := by
      have := instStep_fst t (m, acc) j
      rw [hstep] at this
      exact this
    rcases List.mem_cons.mp hi with he | he
    · subst he
      have hhas : hasKey m1 (mkInstance t i).name = true := by
        by_cases hh : hasKey m (mkInstance t i).name = true
        · rw [hm1, if_pos hh]; exact hh
        · rw [hm1, if_neg hh]; exact hasKey_setKey_self m (mkInstance t i).name (mkInstance t i)
      exact (foldl_instStep_preserve t l m1 a1 (mkInstance t i).name hhas).2
    · exact ih m1 a1 i he

/-- C2 counterexample: with the boxes formed as position plus collision
offset/size (the wording of the claim), `offsetEntityA` (box x 1000..1010)
and `offsetEntityB` (box x 5..15) do not overlap, yet `colliding` reports
true, because the source never adds the collision offsets to the positions. -/
theorem colliding_offset_counterexample :
    colliding offsetEntityA offsetEntityB = true ∧
    ¬ boxesOverlapWithOffset offsetEntityA offsetEntityB := by
  constructor
  · rw [colliding_char]
    refine ⟨by simp [offsetEntityA, collisionComplete], by simp [offsetEntityB, collisionComplete], ?_⟩
    norm_num [boxesOverlapAtPos, offsetEntityA, offsetEntityB]
  · norm_num [boxesOverlapWithOffset, offsetEntityA, offsetEntityB]

/-- C2 (amended): `colliding(a, b)` returns true iff all eight collision
fields are numbers and the two boxes anchored at the raw entity positions
with the collision widths/heights (the collision x/y offsets are checked to
be numbers but never added) overlap with inclusive comparisons on all four
sides; the result is false whenever either box is incomplete. -/
theorem colliding_amended (a b : GameObject) :
    colliding a b = true ↔
      collisionComplete a ∧ collisionComplete b ∧ boxesOverlapAtPos a b :=
  colliding_char a b

/-- C7: `colliding` is symmetric in its two arguments. -/
theorem colliding_symm (a b : GameObject) : colliding a b = colliding b a := by
  rw [Bool.eq_iff_iff, colliding_char, colliding_char]
  unfold boxesOverlapAtPos
  constructor
  · rintro ⟨ca, cb, o1, o2, o3, o4⟩
    exact ⟨cb, ca, o2, o1, o4, o3⟩
  · rintro ⟨cb, ca, o1, o2, o3, o4⟩
    exact ⟨ca, cb, o2, o1, o4, o3⟩

lemma getKey_setKey_self {α : Type} (m : JsMap α) (k : String) (v : α) :
    getKey (setKey m k v) k = some v := by
  induction m with
  | nil => simp [setKey, getKey]
  | cons p rest ih =>
    by_cases h : (p.1 == k) = true
    · simp [setKey, h, getKey]
    · simp [setKey, h, getKey, ih]

lemma hasKey_setKey_ne {α : Type} (m : JsMap α) {k k2 : String} (v : α) (hne : k ≠ k2) :
    hasKey (setKey m k2 v) k = hasKey m k := by
  induction m with
  | nil =>
    have : (k2 == k) = false := by
      simp only [beq_eq_false_iff_ne, ne_eq]
      exact fun e => hne e.symm
    simp [setKey, hasKey_cons, hasKey_nil, this]
  | cons p rest ih =>
    by_cases h2 : (p.1 == k2) = true
    · have e2 : p.1 = k2 := by simpa using h2
      have hpk : (p.1 == k) = false := by
        simp only [beq_eq_false_iff_ne, ne_eq]
        intro e; exact hne (e2 ▸ e).symm
      have hk2k : (k2 == k) = false := by
        simp only [beq_eq_false_iff_ne, ne_eq]
        exact fun e => hne e.symm
      simp [setKey, h2, hasKey_cons, hpk, hk2k]
    · simp [setKey, h2, hasKey_cons, ih]

lemma mkInstance_eq_of_name_eq (t : GameObject) {i j : Nat}
    (h : (mkInstance t i).name = (mkInstance t j).name) :
    mkInstance t i = mkInstance t j := by
  have h2 : t.name ++ "-" ++ toString (i + 1) = t.name ++ "-" ++ toString (j + 1) := h
  unfold mkInstance
  rw [h2]

lemma foldl_instStep_registers (t : GameObject) (l : List Nat) :
    ∀ (m : JsMap GameObject) (acc : List GameObject) (i : Nat), i ∈ l →
      hasKey m (mkInstance t i).name = false →
      getKey (l.foldl (instStep t) (m, acc)).1 (mkInstance t i).name =
        some (mkInstance t i) := by
  induction l with
  | nil => intro m acc i hi habs; simp at hi
  | cons j l ih =>
    intro m acc i hi habs
    rw [List.foldl_cons]
    rcases hstep : instStep t (m, acc) j with ⟨m1, a1⟩
    have hm1 : m1 =
        if hasKey m (mkInstance t j).name then m
        else setKey m (mkInstance t j).name (mkInstance t j) := by
      have := instStep_fst t (m, acc) j
      rw [hstep] at this
      exact this
    rcases List.mem_cons.mp hi with he | he
    · subst he
      have hcond : ¬ (hasKey m (mkInstance t i).name = true) := by
        rw [habs]
        exact Bool.false_ne_true
      rw [hm1, if_neg hcond]
      rw [(foldl_instStep_preserve t l
        (setKey m (mkInstance t i).name (mkInstance t i)) a1 (mkInstance t i).name
        (hasKey_setKey_self m (mkInstance t i).name (mkInstance t i))).1]
      exact getKey_setKey_self m (mkInstance t i).name (mkInstance t i)
    · by_cases hj : hasKey m (mkInstance t j).name = true
      · rw [hm1, if_pos hj]
        exact ih m a1 i he habs
      · rw [hm1, if_neg hj]
        by_cases hname : (mkInstance t j).name = (mkInstance t i).name
        · have heq : mkInstance t j = mkInstance t i := mkInstance_eq_of_name_eq t hname
          rw [heq]
          rw [(foldl_instStep_preserve t l
            (setKey m (mkInstance t i).name (mkInstance t i)) a1 (mkInstance t i).name
            (hasKey_setKey_self m (mkInstance t i).name (mkInstance t i))).1]
          exact getKey_setKey_self m (mkInstance t i).name (mkInstance t i)
        · have habs2 : hasKey (setKey m (mkInstance t j).name (mkInstance t j))
              (mkInstance t i).name = false := by
            rw [hasKey_setKey_ne m (mkInstance t j) (fun e => hname e.symm)]
            exact habs
          exact ih (setKey m (mkInstance t j).name (mkInstance t j)) a1 i he habs2

/-- C3 counterexample: with the name "tpl-1" already registered to
`occupyingEntity`, `instantiate(templateEntity, 1)` skips the registration —
the registry still maps "tpl-1" to the old entity — yet the returned list
still contains the (unregistered) fresh entity, so the list is not "exactly
the newly created entities that were actually registered". -/
theorem instantiate_unregistered_counterexample :
    (instantiateObjects [("tpl-1", occupyingEntity)] templateEntity 1).2 =
      [mkInstance templateEntity 0] ∧
    getKey (instantiateObjects [("tpl-1", occupyingEntity)] templateEntity 1).1 "tpl-1" =
      some occupyingEntity ∧
    mkInstance templateEntity 0 ≠ occupyingEntity := by
  refine ⟨?_, ?_, ?_⟩
  · rw [instantiateObjects, foldl_instStep_snd]
    rfl
  · rw [instantiateObjects]
    have h : hasKey [("tpl-1", occupyingEntity)] "tpl-1" = true := by decide
    rw [(foldl_instStep_preserve templateEntity (List.range 1)
      [("tpl-1", occupyingEntity)] [] "tpl-1" h).1]
    simp [getKey]
  · simp [mkInstance, templateEntity, occupyingEntity]

/-- C3 (amended): `instantiate(template, n)` with `n ≥ 1` creates `n`
entities named template-1 through template-n, each cloning the template
sprite; each created entity is registered under its derived name — a derived
name that was not yet registered maps to the created entity afterwards —
except when that name is already present in the registry at the start, which
is skipped (the registry entry keeps its old value — not an error); every
derived name is present in the registry afterwards; and the returned list
contains ALL `n` created entities, whether or not each one was actually
registered. -/
theorem instantiate_amended (gm : JsMap GameObject) (t : GameObject) (n : Nat)
    (_hn : 1 ≤ n) :
    (instantiateObjects gm t n).2 = (List.range n).map (mkInstance t) ∧
    (∀ i, i < n → (mkInstance t i).name = t.name ++ "-" ++ toString (i + 1) ∧
      (mkInstance t i).sprite = GameSprite.clone t.sprite) ∧
    (∀ i, i < n → hasKey gm (mkInstance t i).name = false →
      getKey (instantiateObjects gm t n).1 (mkInstance t i).name =
        some (mkInstance t i)) ∧
    (∀ k, hasKey gm k = true →
      getKey (instantiateObjects gm t n).1 k = getKey gm k) ∧
    (∀ i, i < n → hasKey (instantiateObjects gm t n).1 (mkInstance t i).name = true) := by
  refine ⟨?_, ?_, ?_, ?_, ?_⟩
  · rw [instantiateObjects, foldl_instStep_snd]
    simp
  · intro i _
    exact ⟨rfl, rfl⟩
  · intro i hi habs
    rw [instantiateObjects]
    exact foldl_instStep_registers t (List.range n) gm [] i (List.mem_range.mpr hi) habs
  · intro k hk
    rw [instantiateObjects]
    exact (foldl_instStep_preserve t (List.range n) gm [] k hk).1
  · intro i hi
    rw [instantiateObjects]
    exact foldl_instStep_names t (List.range n) gm [] i (List.mem_range.mpr hi)

/-- C3 witness: instantiating one entity from the template into an empty
registry returns exactly the one created entity. -/
theorem instantiate_amended_witness :
    (instantiateObjects [] templateEntity 1).2 =
      (List.range 1).map (mkInstance templateEntity) :=
  (instantiate_amended [] templateEntity 1 (by decide)).1

/-- C8: after `removeObject(e)` the entity registry no longer has the
entity's name; removing it again is a no-op that returns the engine
unchanged; and removing an absent entity changes nothing at all. -/
theorem removeObject_round_trip (e : Engine) (o : GameObject) :
    hasKey (removeObject e (Removable.objectR o)).loadedGameObjects o.name = false ∧
    removeObject (removeObject e (Removable.objectR o)) (Removable.objectR o) =
      removeObject e (Removable.objectR o) ∧
    (hasKey e.loadedGameObjects o.name = false →
      removeObject e (Removable.objectR o) = e) := by
  have hnoop : ∀ e1 : Engine, hasKey e1.loadedGameObjects o.name = false →
      removeObject e1 (Removable.objectR o) = e1 := by
    intro e1 h1
    simp [removeObject, h1]
  have hafter : hasKey (removeObject e (Removable.objectR o)).loadedGameObjects o.name = false := by
    cases h : hasKey e.loadedGameObjects o.name with
    | false =>
      rw [hnoop e h]
      exact h
    | true =>
      simp [removeObject, h, hasKey_deleteKey_self]
  exact ⟨hafter, hnoop _ hafter, hnoop e⟩

/-- C8 witness: removing an entity that was never registered from a freshly
constructed game leaves the engine unchanged. -/
theorem removeObject_round_trip_witness :
    removeObject (mkGame 320 240) (Removable.objectR occupyingEntity) = mkGame 320 240 :=
  (removeObject_round_trip (mkGame 320 240) occupyingEntity).2.2 rfl

/-- C6: a preload stage whose producer returns the empty asset list rejects
with the empty-asset-list error ("Zero assets returned"), and every registry
is exactly as it was before the stage. -/
theorem preload_empty_fails (e : Engine) :
    (runStage e (Stage.preloadStage (Except.ok []))).2 = Except.error GErr.emptyAssetList ∧
    (runStage e (Stage.preloadStage (Except.ok []))).1.loadedSprites = e.loadedSprites ∧
    (runStage e (Stage.preloadStage (Except.ok []))).1.loadedAudios = e.loadedAudios ∧
    (runStage e (Stage.preloadStage (Except.ok []))).1.loadedGameObjects = e.loadedGameObjects ∧
    (runStage e (Stage.preloadStage (Except.ok []))).1.loadedGameMaps = e.loadedGameMaps ∧
    (runStage e (Stage.preloadStage (Except.ok []))).1.loadedGameCameras = e.loadedGameCameras :=
  ⟨rfl, rfl, rfl, rfl, rfl, rfl⟩

/-- C1 (code bug): in a chain whose preload producer throws "boom" followed
by a load stage, the chain link rejects, yet the final lifecycle state is
`preload` — not `error` — and the load stage body never ran (it would have
set the state to `load`); moreover the handler the constructor attached
observes only the initial already-resolved promise, so it never changes
anything. -/
theorem lifecycle_rejection_code_bug :
    (runChain (mkGame 320 240)
        [Stage.preloadStage (Except.error "boom"), Stage.loadStage (Except.ok [])]).2 =
      Except.error (GErr.producerThrow "boom") ∧
    (gameRun (mkGame 320 240)
        [Stage.preloadStage (Except.error "boom"), Stage.loadStage (Except.ok [])]).currentState =
      GameState.preload ∧
    (gameRun (mkGame 320 240)
        [Stage.preloadStage (Except.error "boom"), Stage.loadStage (Except.ok [])]).currentState ≠
      GameState.error ∧
    (∀ e : Engine, constructorCatchHandler e initialLifecycleOutcome = e) := by
  refine ⟨rfl, rfl, ?_, fun e => rfl⟩
  intro h
  rw [show (gameRun (mkGame 320 240)
      [Stage.preloadStage (Except.error "boom"), Stage.loadStage (Except.ok [])]).currentState =
    GameState.preload from rfl] at h
  exact absurd h (by decide)

/-- C4 counterexample: after construction the stored previous time is 0, so
a first animation frame at timestamp 2000 hands the user callback
(2000 - 0) / 1000 = 2 seconds — not 0. -/
theorem first_tick_delta_counterexample :
    (runTicks (gameRun (mkGame 320 240) [Stage.updateStage]) [2000]).2 = [2] ∧
    ((2 : ℚ) ≠ 0) := by
  constructor
  · have hstate : (gameRun (mkGame 320 240) [Stage.updateStage]).currentState =
        GameState.update := rfl
    have hprev : (gameRun (mkGame 320 240) [Stage.updateStage]).deltaTimePreviousTime =
        0 := rfl
    simp only [runTicks, updateTick, hstate, hprev]
    norm_num
  · norm_num

lemma cons_getD_succ_eq (t : ℚ) (rest : List ℚ) (j : Nat) :
    (t :: rest).getD j 0 = if j = 0 then t else rest.getD (j - 1) 0 := by
  cases j with
  | zero => simp
  | succ k => simp

/-- C4 (amended): the elapsed value handed to the user callback on tick `i`
of a run started in the `update` state is
`(t_i - previous_i) / 1000`, where `previous_0` is the engine's stored
previous time (0 right after construction — so the very first tick receives
`t_0 / 1000`, which is generally not 0) and `previous_(i+1) = t_i`. -/
theorem tick_delta_amended (e : Engine) (ts : List ℚ) (i : Nat)
    (hstate : e.currentState = GameState.update) (hi : i < ts.length) :
    (runTicks e ts).2.get? i =
      some ((ts.getD i 0 -
        (if i = 0 then e.deltaTimePreviousTime else ts.getD (i - 1) 0)) / 1000) := by
  induction ts generalizing e i with
  | nil => simp at hi
  | cons t rest ih =>
    have hguard : updateTick e t =
        ({ e with deltaTimePreviousTime := t },
         some ((t - e.deltaTimePreviousTime) / 1000)) := by
      simp [updateTick, hstate]
    simp only [runTicks, hguard]
    cases i with
    | zero => simp
    | succ j =>
      have hj : j < rest.length := by simpa using hi
      have hstate2 : ({ e with deltaTimePreviousTime := t } : Engine).currentState =
          GameState.update := hstate
      have hih := ih { e with deltaTimePreviousTime := t } j hstate2 hj
      simp only [List.get?_cons_succ, hih]
      simp only [List.getD_cons_succ, Nat.succ_ne_zero, if_false, Nat.succ_sub_one]
      rw [cons_getD_succ_eq]

/-- C4 witness: on the second tick of a run with frames at 2000 and 2500 the
callback receives (2500 - 2000) / 1000. -/
theorem tick_delta_amended_witness :
    (runTicks (gameRun (mkGame 320 240) [Stage.updateStage]) [2000, 2500]).2.get? 1 =
      some ((([2000, 2500] : List ℚ).getD 1 0 -
        (if 1 = 0 then (gameRun (mkGame 320 240) [Stage.updateStage]).deltaTimePreviousTime
         else ([2000, 2500] : List ℚ).getD (1 - 1) 0)) / 1000) :=
  tick_delta_amended (gameRun (mkGame 320 240) [Stage.updateStage]) [2000, 2500] 1
    rfl (by simp)

/-- C5 counterexample: run a `runOnce` with key "intro" during the update
loop, then call `end()` — the run-once key set still holds "intro", because
`end()` never clears `#updaterRunOnceKeys`. -/
theorem end_keeps_runOnce_counterexample :
    (endGame (runOnce (gameRun (mkGame 320 240) [Stage.updateStage]) "intro").1).updaterRunOnceKeys =
      ["intro"] ∧
    (["intro"] : JsSet) ≠ [] := by
  constructor
  · rfl
  · simp

/-- C5 (amended): after `end()` logging is disabled, the loop is paused, no
input listener is attached, the five registries, the keyboard state and the
miss-logging dedupe set are all empty — but the run-once key set is left
exactly as it was (it is not cleared). -/
theorem end_clears_amended (e : Engine) :
    (endGame e).logsEnabled = false ∧
    (endGame e).updateIsRunning = false ∧
    listenersAttached (endGame e) = false ∧
    (endGame e).loadedSprites = [] ∧
    (endGame e).loadedGameObjects = [] ∧
    (endGame e).loadedAudios = [] ∧
    (endGame e).loadedGameMaps = [] ∧
    (endGame e).loadedGameCameras = [] ∧
    (endGame e).keyboardState = [] ∧
    (endGame e).loggedErros = [] ∧
    (endGame e).updaterRunOnceKeys = e.updaterRunOnceKeys := by
  unfold endGame pauseGame listenersAttached
  cases h : e.updateIsRunning <;> cases hk : e.keyboardInstance <;> simp [h, hk]

/-- C10: assigning a smoothing quality while the rendering type is not
"smooth" throws (with the invalid-mode message) and leaves the engine state
unchanged: the stored quality keeps its previous value and the rendering
type is unmodified. -/
theorem smoothing_quality_atomic (e : Engine) (q : SmoothQuality)
    (h : e.renderingType ≠ RenderingType.smooth) :
    setSmoothingQuality e q =
      Except.error "The current rendering type is not smooth, set it to smooth to use the smoothingQuality attribute" ∧
    applyOp e (Op.setSmoothingQualityOp q) = e := by
  have h1 : setSmoothingQuality e q =
      Except.error "The current rendering type is not smooth, set it to smooth to use the smoothingQuality attribute" := by
    unfold setSmoothingQuality
    rw [if_pos h]
  refine ⟨h1, ?_⟩
  have h2 : applyOp e (Op.setSmoothingQualityOp q) =
      (match setSmoothingQuality e q with
       | Except.ok e1 => e1
       | Except.error _ => e) := rfl
  rw [h2, h1]

/-- C10 witness: on a fresh game switched to pixelated rendering, setting the
smoothing quality leaves the engine unchanged. -/
theorem smoothing_quality_atomic_witness :
    applyOp (setRenderingType (mkGame 320 240) RenderingType.pixelated)
        (Op.setSmoothingQualityOp SmoothQuality.high) =
      setRenderingType (mkGame 320 240) RenderingType.pixelated :=
  (smoothing_quality_atomic (setRenderingType (mkGame 320 240) RenderingType.pixelated)
    SmoothQuality.high (by decide)).2

lemma jsAbs_nonneg (x : ℚ) : 0 ≤ jsAbs x := by
  unfold jsAbs
  split
  · linarith
  · linarith

lemma insertLoadable_dims (acc : Engine) (l : Loadable) :
    (insertLoadable acc l).width = acc.width ∧
    (insertLoadable acc l).height = acc.height ∧
    (insertLoadable acc l).scale = acc.scale := by
  cases l <;> exact ⟨rfl, rfl, rfl⟩

lemma foldl_insertLoadable_dims (objs : List Loadable) :
    ∀ acc : Engine,
      (objs.foldl insertLoadable acc).width = acc.width ∧
      (objs.foldl insertLoadable acc).height = acc.height ∧
      (objs.foldl insertLoadable acc).scale = acc.scale := by
  induction objs with
  | nil => intro acc; exact ⟨rfl, rfl, rfl⟩
  | cons l rest ih =>
    intro acc
    rw [List.foldl_cons]
    obtain ⟨w1, h1, s1⟩ := ih (insertLoadable acc l)
    obtain ⟨w2, h2, s2⟩ := insertLoadable_dims acc l
    exact ⟨w1.trans w2, h1.trans h2, s1.trans s2⟩

lemma runStage_dims (e : Engine) (s : Stage) :
    (runStage e s).1.width = e.width ∧
    (runStage e s).1.height = e.height ∧
    (runStage e s).1.scale = e.scale := by
  cases s with
  | preloadStage producer =>
    cases producer with
    | error msg => exact ⟨rfl, rfl, rfl⟩
    | ok assets =>
      by_cases hlen : assets.length = 0
      · refine ⟨?_, ?_, ?_⟩ <;> simp [runStage, hlen]
      · cases hsf : firstSpriteFailure assets with
        | some nm => refine ⟨?_, ?_, ?_⟩ <;> simp [runStage, hlen, hsf]
        | none =>
          cases haf : firstAudioFailure assets with
          | some nm => refine ⟨?_, ?_, ?_⟩ <;> simp [runStage, hlen, hsf, haf]
          | none => refine ⟨?_, ?_, ?_⟩ <;> simp [runStage, hlen, hsf, haf]
  | loadStage producer =>
    cases producer with
    | error msg => exact ⟨rfl, rfl, rfl⟩
    | ok objs =>
      exact foldl_insertLoadable_dims objs { e with currentState := GameState.load }
  | updateStage => exact ⟨rfl, rfl, rfl⟩

lemma runChain_dims (stages : List Stage) :
    ∀ e : Engine,
      (runChain e stages).1.width = e.width ∧
      (runChain e stages).1.height = e.height ∧
      (runChain e stages).1.scale = e.scale := by
  induction stages with
  | nil => intro e; exact ⟨rfl, rfl, rfl⟩
  | cons s rest ih =>
    intro e
    obtain ⟨w1, h1, s1⟩ := runStage_dims e s
    cases hq : runStage e s with
    | mk e1 r =>
      rw [hq] at w1 h1 s1
      cases r with
      | ok u =>
        have hrun : runChain e (s :: rest) = runChain e1 rest := by
          simp only [runChain, hq]
        rw [hrun]
        obtain ⟨w2, h2, s2⟩ := ih e1
        exact ⟨w2.trans w1, h2.trans h1, s2.trans s1⟩
      | error err =>
        have hrun : runChain e (s :: rest) = (e1, Except.error err) := by
          simp only [runChain, hq]
        rw [hrun]
        exact ⟨w1, h1, s1⟩

lemma endGame_dims (e : Engine) :
    (endGame e).width = e.width ∧
    (endGame e).height = e.height ∧
    (endGame e).scale = e.scale := by
  unfold endGame pauseGame
  cases h : e.updateIsRunning <;> cases hk : e.keyboardInstance <;> simp [h, hk]

lemma applyOp_dims (e : Engine) (op : Op)
    (hw : 0 ≤ e.width) (hh : 0 ≤ e.height) (hs : 0 ≤ e.scale) :
    0 ≤ (applyOp e op).width ∧ 0 ≤ (applyOp e op).height ∧ 0 ≤ (applyOp e op).scale := by
  cases op with
  | setScaleOp v => exact ⟨hw, hh, jsAbs_nonneg v⟩
  | setRenderingTypeOp rt => exact ⟨hw, hh, hs⟩
  | setSmoothingQualityOp q =>
    have h2 : applyOp e (Op.setSmoothingQualityOp q) =
        (match setSmoothingQuality e q with
         | Except.ok e1 => e1
         | Except.error _ => e) := rfl
    rw [h2]
    unfold setSmoothingQuality
    by_cases hr : e.renderingType ≠ RenderingType.smooth
    · rw [if_pos hr]
      exact ⟨hw, hh, hs⟩
    · rw [if_neg hr]
      exact ⟨hw, hh, hs⟩
  | pauseOp =>
    have h2 : applyOp e Op.pauseOp = pauseGame e := rfl
    rw [h2]
    unfold pauseGame
    cases hb : e.updateIsRunning
    · simp
      exact ⟨hw, hh, hs⟩
    · simp
      exact ⟨hw, hh, hs⟩
  | resumeOp =>
    have h2 : applyOp e Op.resumeOp = resumeGame e := rfl
    rw [h2]
    unfold resumeGame
    cases hb : e.updateIsRunning
    · simp
      exact ⟨hw, hh, hs⟩
    · simp
      exact ⟨hw, hh, hs⟩
  | endOp =>
    obtain ⟨w1, h1, s1⟩ := endGame_dims e
    have h2 : applyOp e Op.endOp = endGame e := rfl
    rw [h2, w1, h1, s1]
    exact ⟨hw, hh, hs⟩
  | useLogsOp =>
    have h2 : applyOp e Op.useLogsOp = useLogs e := rfl
    rw [h2]
    unfold useLogs
    cases hb : e.logsEnabled
    · simp
      exact ⟨hw, hh, hs⟩
    · simp
      exact ⟨hw, hh, hs⟩
  | useKeyboardOp => exact ⟨hw, hh, hs⟩
  | removeObjectOp t =>
    have h2 : applyOp e (Op.removeObjectOp t) = removeObject e t := rfl
    rw [h2]
    cases t with
    | spriteR s2 =>
      unfold removeObject
      dsimp only
      by_cases hb : hasKey e.loadedSprites s2.name = true
      · rw [if_pos hb]
        exact ⟨hw, hh, hs⟩
      · rw [if_neg hb]
        exact ⟨hw, hh, hs⟩
    | objectR o =>
      unfold removeObject
      dsimp only
      by_cases hb : hasKey e.loadedGameObjects o.name = true
      · rw [if_pos hb]
        exact ⟨hw, hh, hs⟩
      · rw [if_neg hb]
        exact ⟨hw, hh, hs⟩
  | instantiateOp t n => exact ⟨hw, hh, hs⟩
  | runOnceOp id =>
    have h2 : applyOp e (Op.runOnceOp id) = (runOnce e id).1 := rfl
    rw [h2]
    unfold runOnce
    cases hb : hasMember e.updaterRunOnceKeys id
    · simp
      exact ⟨hw, hh, hs⟩
    · simp
      exact ⟨hw, hh, hs⟩
  | chainOp stages =>
    obtain ⟨w1, h1, s1⟩ := runChain_dims stages e
    have h2 : applyOp e (Op.chainOp stages) = (runChain e stages).1 := rfl
    rw [h2, w1, h1, s1]
    exact ⟨hw, hh, hs⟩
  | tickOp t =>
    have h2 : applyOp e (Op.tickOp t) = (updateTick e t).1 := rfl
    rw [h2]
    unfold updateTick
    by_cases hb : e.currentState ≠ GameState.update
    · rw [if_pos hb]
      exact ⟨hw, hh, hs⟩
    · rw [if_neg hb]
      exact ⟨hw, hh, hs⟩

lemma foldl_applyOp_dims (ops : List Op) :
    ∀ e : Engine, 0 ≤ e.width → 0 ≤ e.height → 0 ≤ e.scale →
      0 ≤ (ops.foldl applyOp e).width ∧
      0 ≤ (ops.foldl applyOp e).height ∧
      0 ≤ (ops.foldl applyOp e).scale := by
  induction ops with
  | nil => intro e hw hh hs; exact ⟨hw, hh, hs⟩
  | cons op rest ih =>
    intro e hw hh hs
    rw [List.foldl_cons]
    obtain ⟨w1, h1, s1⟩ := applyOp_dims e op hw hh hs
    exact ih (applyOp e op) w1 h1 s1

/-- C9: the constructor stores the absolute values of the supplied width and
height (negative input only logs a warning, it does not fail), the scale
setter stores the absolute value of its argument, and consequently after any
sequence of engine operations starting from a freshly constructed game the
width, height and global scale are all non-negative. -/
theorem dims_scale_nonneg (w h : ℚ) (ops : List Op) :
    (mkGame w h).width = jsAbs w ∧
    (mkGame w h).height = jsAbs h ∧
    (∀ (e : Engine) (v : ℚ), (applyOp e (Op.setScaleOp v)).scale = jsAbs v) ∧
    (0 ≤ (ops.foldl applyOp (mkGame w h)).width ∧
     0 ≤ (ops.foldl applyOp (mkGame w h)).height ∧
     0 ≤ (ops.foldl applyOp (mkGame w h)).scale) := by
  refine ⟨rfl, rfl, fun e v => rfl, ?_⟩
  exact foldl_applyOp_dims ops (mkGame w h) (jsAbs_nonneg w) (jsAbs_nonneg h)
    (by norm_num [mkGame])
